import Mathlib

/-!
Shallow embedding of `src/bot.py` (a Telegram quiz bot): the per-user quiz
session state machine (session store entry, task queue, answer scoring,
skip, timer-driven finalization) and the answer normalizer.

Conventions of the embedding:
* Python strings are Lean `String` (a list of `Char`); machine integers do
  not occur.
* The per-user slot of the global dict `user_sessions` is modelled for one
  fixed user (handlers for distinct users touch disjoint keys, so the model
  of one key loses nothing).
* External collaborators (Supabase, Telegram transport) are modelled by
  event parameters (registration lookup outcome, fetched-and-shuffled task
  list, inbound texts and button labels) and by an `output` transcript of
  the messages the bot sends.
* Fallible code (the unguarded list indexing `session["tasks"][current]`
  and `list.pop(current)`, which raise `IndexError` when out of range) is
  modelled with `Option`: `none` is a crash of the handler.
* Ghost fields (`gen`, `total0` on `Session`, `gen`/`total0` on `Report`,
  `timers` and `nextGen` on `BotState`) are history variables: they record
  which `begin_test` created a session and the queue length at creation.
  No transition ever branches on them; they only let theorems speak about
  session identity across time, exactly as the source's timer closure is
  tied to one particular `begin_test` call.
-/

namespace MathBot

/-- Python whitespace for `str.strip()` and the regex `\s`
(space, tab, newline, carriage return, vertical tab, form feed). -/
def isPySpace (c : Char) : Bool :=
  c = ' ' || c = '\t' || c = '\n' || c = '\r' || c = '\x0b' || c = '\x0c'

/-- The character class removed by `re.sub(r"[°º\^•××\*\/\\\.,;:!?\-\(\)\[\]\"']", "", s)`
in `normalize_answer` (bot.py line 43). -/
def pyPunct : List Char :=
  ['°', 'º', '^', '•', '×', '*', '/', '\\', '.', ',', ';', ':', '!', '?',
   '-', '(', ')', '[', ']', '"', '\'']

/-- Is `c` in the punctuation class stripped by `normalize_answer`? -/
def isPyPunct (c : Char) : Bool := pyPunct.contains c

/-- Python `str.lower()` per character, on the alphabets the repository's
strings draw from (basic Latin `A`-`Z` and Cyrillic `А`-`Я`, `Ё`); other
characters are unchanged.  Mirrors CPython's case mapping on that range:
uppercase Latin and Cyrillic letters move down into their lowercase block,
`Ё` (U+0401) maps to `ё` (U+0451). -/
def pyLower (c : Char) : Char :=
  let n := c.toNat
  if 65 ≤ n ∧ n ≤ 90 then Char.ofNat (n + 32)
  else if 1040 ≤ n ∧ n ≤ 1071 then Char.ofNat (n + 32)
  else if n = 1025 then Char.ofNat 1105
  else c

/-- Python `str.strip()` on a character list: drop leading and trailing
whitespace. -/
def trimChars (cs : List Char) : List Char :=
  ((cs.dropWhile isPySpace).reverse.dropWhile isPySpace).reverse

/-- Core of `normalize_answer` (bot.py lines 38-45) on the character list of a
string: lowercase, strip, delete the punctuation class, delete all
remaining whitespace (`re.sub(r"\s+", "", s)` with empty replacement
removes every whitespace character). -/
def normalizeChars (cs : List Char) : List Char :=
  ((trimChars (cs.map pyLower)).filter (fun c => !isPyPunct c)).filter
    (fun c => !isPySpace c)

/-- Function `normalize_answer` (bot.py lines 38-45).  The `isinstance` guard
returning `""` for non-strings is outside the model: every modelled value
is a string. -/
def normalize_answer (s : String) : String := String.mk (normalizeChars s.data)

/-- Python `str.strip()` on a `String` (used on inbound message text,
bot.py line 242). -/
def pyStrip (s : String) : String := String.mk (trimChars s.data)

/-- One quiz item as loaded from the task bank (after `load_tasks_from_supabase`
has deserialized `options`).  `type` carries the value of
`task.get("type", "choice")`: a row without the key is represented with
`"choice"`. -/
structure Task where
  type : String
  question : String
  options : List String
  answer : String
  explanation : String
deriving DecidableEq, Repr

instance : Inhabited Task :=
  ⟨{ type := "", question := "", options := [], answer := "", explanation := "" }⟩

/-- The data of one final report sent by `show_results` (bot.py lines 256-274):
`correct`/`total` is the rendered score, `wrong` the missed
(question, explanation) pairs.  `gen` and `total0` are ghost copies of the
finalized session's ghost fields. -/
structure Report where
  correct : Nat
  total : Nat
  wrong : List (String × String)
  gen : Nat
  total0 : Nat
deriving DecidableEq, Repr

/-- One user's session dict (bot.py lines 143-149): `tasks`, `current`,
`correct`, `wrong`, `waiting_text`, plus the two ghost fields `gen`
(which `begin_test` call created it) and `total0` (queue length at
creation). -/
structure Session where
  tasks : List Task
  current : Nat
  correct : Nat
  wrong : List (String × String)
  waiting_text : Bool
  gen : Nat
  total0 : Nat
deriving DecidableEq, Repr

/-- A message the bot sends to the user, one constructor per
`bot.send_message` / `message.answer` call site in the modelled handlers. -/
inductive Out where
  | serverError
  | notRegistered
  | noTasks
  | qChoice (question : String) (options : List String)
  | qText (question : String)
  | qFallback (question : String)
  | correctFeedback
  | incorrectFeedback
  | noSessionHint
  | menu
  | report (r : Report)
deriving DecidableEq, Repr

/-- Is this output a final report? -/
def Out.isReport : Out → Bool
  | .report _ => true
  | _ => false

/-- Does this output finalize the session of generation `g`? -/
def Out.isReportFor (g : Nat) : Out → Bool
  | .report r => r.gen = g
  | _ => false

/-- How many final reports for generation `g` the transcript contains. -/
def reportCount (g : Nat) (out : List Out) : Nat :=
  (out.filter (Out.isReportFor g)).length

/-- The state visible to one user: their slot in `user_sessions`
(bot.py line 48), the transcript of messages sent to them, and the ghost
bookkeeping `nextGen` (fresh session identifier) and `timers` (identifiers
of scheduled, not yet fired, `test_timer` tasks; `asyncio.create_task` at
bot.py line 152 appends, a firing removes). -/
structure BotState where
  session : Option Session
  output : List Out
  nextGen : Nat
  timers : List Nat
deriving DecidableEq, Repr

/-- Outcome of the registration lookup at the top of `begin_test`
(bot.py lines 128-135): Supabase error, no row for this user, or a row
found. -/
inductive RegLookup where
  | err
  | absent
  | found
deriving DecidableEq, Repr

/-- External events that drive the one user's handlers.  `start` carries
the registration-lookup outcome and the task list as fetched and already
shuffled (`random.shuffle` externalized as nondeterministic input; an
empty list also covers a Supabase load error, which makes
`load_tasks_from_supabase` return `[]`).  `answerClick label` is a
callback with data `"ans:" + label` — the callback data carries only the
option label, no question identity.  `timerFire g` is the `test_timer`
task created by the `begin_test` call of generation `g` waking up. -/
inductive Event where
  | start (reg : RegLookup) (bank : List Task)
  | answerClick (label : String)
  | skip
  | backMenu
  | textMsg (text : String)
  | timerFire (g : Nat)
deriving DecidableEq, Repr

/-- Is this event a test start (the only event that may create a session)? -/
def Event.isStart : Event → Bool
  | .start _ _ => true
  | _ => false

/-- Handler `main_menu` (bot.py lines 58-63): `user_sessions.pop(user_id, None)`
then send the menu. -/
def main_menu (st : BotState) : BotState :=
  { st with session := none, output := st.output ++ [Out.menu] }

/-- The report rendered by `show_results` for session `s`: the denominator
is `len(session["tasks"])` at finalize time (bot.py line 260). -/
def finalReport (s : Session) : Report :=
  { correct := s.correct, total := s.tasks.length, wrong := s.wrong,
    gen := s.gen, total0 := s.total0 }

/-- Handler `show_results` (bot.py lines 256-274): `user_sessions.pop(user_id, None)`;
if no session was present, return; otherwise render
`correct/len(session["tasks"])` and the missed list. -/
def show_results (st : BotState) : BotState :=
  match st.session with
  | none => st
  | some s =>
    { st with
      session := none
      output := st.output ++ [Out.report (finalReport s)] }

/-- Body of `send_task` (bot.py lines 161-192) with explicit structural
fuel standing for the (terminating) recursion of the unknown-type fallback
branch.  `send_task` always supplies `tasks.length + 1` fuel, which is
strictly more than the recursion can consume, so the fuel-0 branch is
dead. -/
def send_task_fuel : Nat → BotState → BotState
  | 0, st => st
  | fuel + 1, st =>
    match st.session with
    | none => st
    | some s =>
      if s.current ≥ s.tasks.length then show_results st
      else
        let task := s.tasks.getD s.current default
        if task.type = "choice" then
          { st with output := st.output ++ [Out.qChoice task.question task.options] }
        else if task.type = "text" then
          { st with
            session := some { s with waiting_text := true }
            output := st.output ++ [Out.qText task.question] }
        else
          send_task_fuel fuel
            { st with
              session := some { s with current := s.current + 1 }
              output := st.output ++ [Out.qFallback task.question] }

/-- Handler `send_task` (bot.py lines 161-192): if no session, return; if
`current >= len(tasks)`, finalize via `show_results`; otherwise present
the current task (`choice` renders option buttons, `text` sets
`waiting_text := true` and prompts, any other type is announced and
auto-advanced, recursing). -/
def send_task (st : BotState) : BotState :=
  match st.session with
  | none => st
  | some s => send_task_fuel (s.tasks.length + 1) st

/-- Handler `begin_test` (bot.py lines 126-153): check registration (error or
missing row abort with a message), load tasks (`[]` aborts with the
"no tasks" message), otherwise overwrite the user's session slot with a
fresh session, schedule a `test_timer`, and present the first task. -/
def begin_test (reg : RegLookup) (bank : List Task) (st : BotState) : BotState :=
  match reg with
  | .err => { st with output := st.output ++ [Out.serverError] }
  | .absent => { st with output := st.output ++ [Out.notRegistered] }
  | .found =>
    if bank.isEmpty then { st with output := st.output ++ [Out.noTasks] }
    else
      send_task
        { st with
          session := some
            { tasks := bank, current := 0, correct := 0, wrong := [],
              waiting_text := false, gen := st.nextGen, total0 := bank.length }
          nextGen := st.nextGen + 1
          timers := st.timers ++ [st.nextGen] }

/-- The scoring block shared by `process_answer` (bot.py lines 203-215) and
`process_text_answer` (bot.py lines 241-252): compare
`normalize_answer(answer) == normalize_answer(task["answer"])` for the task
at `current`; on success increment `correct`, on failure append
`(question, explanation)` to `wrong`; then `current += 1` and
`waiting_text = False`.  Returns the updated session and whether the
answer was correct. -/
def score_answer (s : Session) (raw : String) : Session × Bool :=
  let task := s.tasks.getD s.current default
  if normalize_answer raw = normalize_answer task.answer then
    ({ s with correct := s.correct + 1, current := s.current + 1,
              waiting_text := false }, true)
  else
    ({ s with wrong := s.wrong ++ [(task.question, task.explanation)],
              current := s.current + 1, waiting_text := false }, false)

/-- Handler `process_answer` (bot.py lines 195-216), the `ans:` callback handler:
no session means a hint message and return; otherwise score the label
against the task at `current` (the indexing `tasks[current]` is unguarded:
out of range is an `IndexError`, modelled as `none`), emit feedback, and
present the next task. -/
def process_answer (label : String) (st : BotState) : Option BotState :=
  match st.session with
  | none => some { st with output := st.output ++ [Out.noSessionHint] }
  | some s =>
    if s.current < s.tasks.length then
      let p := score_answer s label
      some (send_task
        { st with
          session := some p.1
          output := st.output ++
            [if p.2 then Out.correctFeedback else Out.incorrectFeedback] })
    else none

/-- The queue rotation of `skip_task` (bot.py lines 224-226):
`task = tasks.pop(current); tasks.append(task); waiting_text = False`,
leaving `current` untouched. -/
def skip_core (s : Session) : Session :=
  { s with
    tasks := s.tasks.eraseIdx s.current ++ [s.tasks.getD s.current default]
    waiting_text := false }

/-- Handler `skip_task` (bot.py lines 218-227), the `skip` callback handler: no
session means silent return; otherwise rotate the current task to the end
of the queue (`list.pop(current)` raises `IndexError` out of range,
modelled as `none`) and re-present. -/
def skip_task (st : BotState) : Option BotState :=
  match st.session with
  | none => some st
  | some s =>
    if s.current < s.tasks.length then
      some (send_task { st with session := some (skip_core s) })
    else none

/-- Handler `process_text_answer` (bot.py lines 234-253), the catch-all message
handler: return silently unless a session exists with `waiting_text`
truthy; otherwise score `message.text.strip()` against the task at
`current` (unguarded indexing modelled as `none` when out of range),
emit feedback, and present the next task. -/
def process_text_answer (text : String) (st : BotState) : Option BotState :=
  match st.session with
  | none => some st
  | some s =>
    if s.waiting_text = false then some st
    else if s.current < s.tasks.length then
      let p := score_answer s (pyStrip text)
      some (send_task
        { st with
          session := some p.1
          output := st.output ++
            [if p.2 then Out.correctFeedback else Out.incorrectFeedback] })
    else none

/-- The body of `test_timer` after the sleep (bot.py lines 155-158):
`if user_id in user_sessions: await show_results(user_id)`.  The guard is
membership of the *user*, not identity of the session the timer was
created with. -/
def test_timer_body (st : BotState) : BotState :=
  match st.session with
  | some _ => show_results st
  | none => st

/-- One external event processed to completion.  `timerFire g` consumes
the scheduled timer `g` (a timer fires at most once; firing a timer that
was never scheduled is a no-op of the model, not a behavior of the code). -/
def step (st : BotState) (e : Event) : Option BotState :=
  match e with
  | .start reg bank => some (begin_test reg bank st)
  | .answerClick label => process_answer label st
  | .skip => skip_task st
  | .backMenu => some (main_menu st)
  | .textMsg t => process_text_answer t st
  | .timerFire g =>
    if g ∈ st.timers then some (test_timer_body { st with timers := st.timers.erase g })
    else some st

/-- A sequence of events processed in order; `none` if some handler
crashed. -/
def steps : BotState → List Event → Option BotState
  | st, [] => some st
  | st, e :: es =>
    match step st e with
    | some st' => steps st' es
    | none => none

/-- The initial state of a fresh process: no session, nothing sent, no
timers scheduled. -/
def init : BotState :=
  { session := none, output := [], nextGen := 0, timers := [] }

/-- Bookkeeping invariant of one stored session: its queue still has the
length it was created with, its generation is in the past of the
generation counter, and no final report has been emitted for it. -/
def SessOK (st : BotState) (s : Session) : Prop :=
  s.tasks.length = s.total0 ∧ s.gen < st.nextGen ∧
  reportCount s.gen st.output = 0

/-- Bookkeeping invariant of the transcript: every emitted report belongs
to an already-allocated generation, renders the original queue length as
its denominator, and is the only report of its generation. -/
def RepOK (st : BotState) : Prop :=
  ∀ r : Report, Out.report r ∈ st.output →
    r.gen < st.nextGen ∧ r.total = r.total0 ∧ reportCount r.gen st.output ≤ 1

/-- Invariant pieces that do not constrain the cursor. -/
def Pre (st : BotState) : Prop :=
  (∀ s, st.session = some s → SessOK st s) ∧ RepOK st

/-- Invariant `Pre` plus the cursor bound that holds while a handler is mid-flight:
`current` may transiently equal the queue length. -/
def PreLe (st : BotState) : Prop :=
  Pre st ∧ ∀ s, st.session = some s → s.current ≤ s.tasks.length

/-- The full invariant at quiescent states (between events): any stored
session keeps its cursor strictly inside the queue. -/
def Good (st : BotState) : Prop :=
  Pre st ∧ ∀ s, st.session = some s → s.current < s.tasks.length

/-- A concrete choice task used by witnesses. -/
def tChoice : Task :=
  { type := "choice", question := "q1", options := ["3", "4"], answer := "4",
    explanation := "e1" }

/-- A concrete free-text task used by witnesses. -/
def tText : Task :=
  { type := "text", question := "q2", options := [], answer := "Paris",
    explanation := "e2" }

/-- A concrete session used by witnesses: two tasks queued, free-text
input awaited. -/
def sWit : Session :=
  { tasks := [tText, tChoice], current := 0, correct := 0, wrong := [],
    waiting_text := true, gen := 0, total0 := 2 }

/-- A concrete stored state used by witnesses. -/
def stWit : BotState :=
  { session := some sWit, output := [], nextGen := 1, timers := [0] }

/-- A concrete session not awaiting free text (current task is the choice
task), used by witnesses. -/
def sChoiceWit : Session :=
  { tasks := [tChoice, tText], current := 0, correct := 0, wrong := [],
    waiting_text := false, gen := 0, total0 := 2 }

/-- A concrete stored state whose session is not awaiting free text. -/
def stChoiceWit : BotState :=
  { session := some sChoiceWit, output := [], nextGen := 1, timers := [0] }

/-- The two-starts event trace of the stale-timer counterexample: the user
starts a test (generation 0, timer 0 scheduled) and then starts another
test while the first is active, which replaces the session (generation 1,
timer 1 scheduled) — bot.py line 143 overwrites `user_sessions[user_id]`. -/
def staleTrace : List Event :=
  [Event.start RegLookup.found [tChoice], Event.start RegLookup.found [tChoice]]

theorem toNat_ofNat_of_lt {m : Nat} (h : m < 55296) : (Char.ofNat m).toNat = m := by
  rw [Char.ofNat, dif_pos (Or.inl h)]
  simp [Char.ofNatAux, Char.toNat, UInt32.toNat, BitVec.toNat_ofNatLt]

theorem pyLower_idem (c : Char) : pyLower (pyLower c) = pyLower c := by
  by_cases h1 : 65 ≤ c.toNat ∧ c.toNat ≤ 90
  · have e1 : pyLower c = Char.ofNat (c.toNat + 32) := by
      simp only [pyLower]; rw [if_pos h1]
    have ht : (Char.ofNat (c.toNat + 32)).toNat = c.toNat + 32 :=
      toNat_ofNat_of_lt (by omega)
    rw [e1]
    simp only [pyLower, ht]
    rw [if_neg (by omega), if_neg (by omega), if_neg (by omega)]
  · by_cases h2 : 1040 ≤ c.toNat ∧ c.toNat ≤ 1071
    · have e2 : pyLower c = Char.ofNat (c.toNat + 32) := by
        simp only [pyLower]; rw [if_neg h1, if_pos h2]
      have ht : (Char.ofNat (c.toNat + 32)).toNat = c.toNat + 32 :=
        toNat_ofNat_of_lt (by omega)
      rw [e2]
      simp only [pyLower, ht]
      rw [if_neg (by omega), if_neg (by omega), if_neg (by omega)]
    · by_cases h3 : c.toNat = 1025
      · have e3 : pyLower c = Char.ofNat 1105 := by
          simp only [pyLower]; rw [if_neg h1, if_neg h2, if_pos h3]
        have ht : (Char.ofNat 1105).toNat = 1105 := toNat_ofNat_of_lt (by omega)
        rw [e3]
        simp only [pyLower, ht]
        rw [if_neg (by omega), if_neg (by omega), if_neg (by omega)]
      · have e4 : pyLower c = c := by
          simp only [pyLower]; rw [if_neg h1, if_neg h2, if_neg h3]
        rw [e4, e4]

theorem dropWhile_eq_self_of_forall {p : Char → Bool} {l : List Char}
    (h : ∀ c ∈ l, p c = false) : l.dropWhile p = l := by
  cases l with
  | nil => rfl
  | cons a l =>
    exact List.dropWhile_cons_of_neg (by simp [h a (List.mem_cons_self a l)])

theorem trimChars_eq_self {l : List Char} (h : ∀ c ∈ l, isPySpace c = false) :
    trimChars l = l := by
  unfold trimChars
  rw [dropWhile_eq_self_of_forall h,
    dropWhile_eq_self_of_forall (fun c hc => h c (List.mem_reverse.mp hc)),
    List.reverse_reverse]

theorem mem_trimChars {l : List Char} {c : Char} (h : c ∈ trimChars l) : c ∈ l := by
  unfold trimChars at h
  exact List.dropWhile_subset _
    (List.mem_reverse.mp (List.dropWhile_subset _ (List.mem_reverse.mp h)))

theorem map_eq_self_of_forall {f : Char → Char} {l : List Char}
    (h : ∀ c ∈ l, f c = c) : l.map f = l := by
  induction l with
  | nil => rfl
  | cons a l ih =>
    simp only [List.map_cons]
    rw [h a (List.mem_cons_self a l), ih (fun c hc => h c (List.mem_cons_of_mem a hc))]

theorem mem_normalizeChars {l : List Char} {c : Char} (h : c ∈ normalizeChars l) :
    pyLower c = c ∧ isPyPunct c = false ∧ isPySpace c = false := by
  unfold normalizeChars at h
  have h1 := List.mem_filter.mp h
  have h2 := List.mem_filter.mp h1.1
  obtain ⟨d, _, hd⟩ := List.mem_map.mp (mem_trimChars h2.1)
  refine ⟨?_, ?_, ?_⟩
  · rw [← hd]; exact pyLower_idem d
  · simpa using h2.2
  · simpa using h1.2

theorem normalizeChars_idem (l : List Char) :
    normalizeChars (normalizeChars l) = normalizeChars l := by
  have hmap : (normalizeChars l).map pyLower = normalizeChars l :=
    map_eq_self_of_forall (fun c hc => (mem_normalizeChars hc).1)
  have htrim : trimChars (normalizeChars l) = normalizeChars l :=
    trimChars_eq_self (fun c hc => (mem_normalizeChars hc).2.2)
  have hfp : (normalizeChars l).filter (fun c => !isPyPunct c) = normalizeChars l :=
    List.filter_eq_self.mpr (fun c hc => by simp [(mem_normalizeChars hc).2.1])
  have hfs : (normalizeChars l).filter (fun c => !isPySpace c) = normalizeChars l :=
    List.filter_eq_self.mpr (fun c hc => by simp [(mem_normalizeChars hc).2.2])
  show ((trimChars ((normalizeChars l).map pyLower)).filter
      (fun c => !isPyPunct c)).filter (fun c => !isPySpace c) = normalizeChars l
  rw [hmap, htrim, hfp, hfs]

/-- Claim C8: `normalize` is idempotent: for every input `x`,
`normalize(normalize(x)) == normalize(x)`. -/
theorem normalize_answer_idempotent (x : String) :
    normalize_answer (normalize_answer x) = normalize_answer x :=
  congrArg String.mk (normalizeChars_idem x.data)

theorem isPySpace_eq_false_of_gt {c : Char} (h : 32 < c.toNat) :
    isPySpace c = false := by
  have hs : ∀ d : Char, d.toNat ≤ 32 → c ≠ d := fun d hd e => by subst e; omega
  simp [isPySpace, hs ' ' (by decide), hs '\t' (by decide), hs '\n' (by decide),
    hs '\r' (by decide), hs '\x0b' (by decide), hs '\x0c' (by decide)]

theorem isPySpace_pyLower (c : Char) : isPySpace (pyLower c) = isPySpace c := by
  by_cases h1 : 65 ≤ c.toNat ∧ c.toNat ≤ 90
  · have e1 : pyLower c = Char.ofNat (c.toNat + 32) := by
      simp only [pyLower]; rw [if_pos h1]
    have ht : (Char.ofNat (c.toNat + 32)).toNat = c.toNat + 32 :=
      toNat_ofNat_of_lt (by omega)
    rw [e1, isPySpace_eq_false_of_gt (by rw [ht]; omega),
      isPySpace_eq_false_of_gt (by omega)]
  · by_cases h2 : 1040 ≤ c.toNat ∧ c.toNat ≤ 1071
    · have e2 : pyLower c = Char.ofNat (c.toNat + 32) := by
        simp only [pyLower]; rw [if_neg h1, if_pos h2]
      have ht : (Char.ofNat (c.toNat + 32)).toNat = c.toNat + 32 :=
        toNat_ofNat_of_lt (by omega)
      rw [e2, isPySpace_eq_false_of_gt (by rw [ht]; omega),
        isPySpace_eq_false_of_gt (by omega)]
    · by_cases h3 : c.toNat = 1025
      · have e3 : pyLower c = Char.ofNat 1105 := by
          simp only [pyLower]; rw [if_neg h1, if_neg h2, if_pos h3]
        have ht : (Char.ofNat 1105).toNat = 1105 := toNat_ofNat_of_lt (by omega)
        rw [e3, isPySpace_eq_false_of_gt (by rw [ht]; omega),
          isPySpace_eq_false_of_gt (by omega)]
      · have e4 : pyLower c = c := by
          simp only [pyLower]; rw [if_neg h1, if_neg h2, if_neg h3]
        rw [e4]

theorem trimChars_eq_rdrop (l : List Char) :
    trimChars l = List.rdropWhile isPySpace (l.dropWhile isPySpace) := rfl

theorem dropWhile_trimChars (l : List Char) :
    (trimChars l).dropWhile isPySpace = trimChars l := by
  rw [trimChars_eq_rdrop]
  have hid : (l.dropWhile isPySpace).dropWhile isPySpace = l.dropWhile isPySpace :=
    List.dropWhile_idempotent isPySpace l
  obtain ⟨t, ht⟩ := List.rdropWhile_prefix isPySpace (l.dropWhile isPySpace)
  cases hv : List.rdropWhile isPySpace (l.dropWhile isPySpace) with
  | nil => rfl
  | cons a v =>
    have hpa : ¬ isPySpace a = true := by
      have h0 := List.dropWhile_eq_self_iff.mp hid
      rw [hv] at ht
      rw [← ht] at h0
      simpa using h0 (by simp)
    exact List.dropWhile_cons_of_neg hpa

theorem trimChars_idem (l : List Char) : trimChars (trimChars l) = trimChars l := by
  rw [trimChars_eq_rdrop (trimChars l), dropWhile_trimChars,
    trimChars_eq_rdrop l, List.rdropWhile_idempotent]

theorem trimChars_map_pyLower (l : List Char) :
    trimChars (l.map pyLower) = (trimChars l).map pyLower := by
  have hps : (isPySpace ∘ pyLower) = isPySpace := funext isPySpace_pyLower
  unfold trimChars
  rw [List.dropWhile_map, hps, ← List.map_reverse, List.dropWhile_map, hps,
    ← List.map_reverse]

theorem normalizeChars_trimChars (l : List Char) :
    normalizeChars (trimChars l) = normalizeChars l := by
  unfold normalizeChars
  rw [trimChars_map_pyLower (trimChars l), trimChars_idem,
    ← trimChars_map_pyLower l]

theorem normalize_answer_pyStrip (s : String) :
    normalize_answer (pyStrip s) = normalize_answer s :=
  congrArg String.mk (normalizeChars_trimChars s.data)

theorem isReportFor_eq_false {o : Out} (h : o.isReport = false) (g : Nat) :
    Out.isReportFor g o = false := by
  cases o <;> simp_all [Out.isReport, Out.isReportFor]

theorem reportCount_append (g : Nat) (a b : List Out) :
    reportCount g (a ++ b) = reportCount g a + reportCount g b := by
  simp [reportCount, List.filter_append]

theorem reportCount_plain {l : List Out} (h : ∀ o ∈ l, o.isReport = false)
    (g : Nat) : reportCount g l = 0 := by
  unfold reportCount
  rw [List.filter_eq_nil_iff.mpr (fun o ho => by simp [isReportFor_eq_false (h o ho)])]
  rfl

theorem reportCount_report_self (r : Report) :
    reportCount r.gen [Out.report r] = 1 := by
  simp [reportCount, List.filter, Out.isReportFor]

theorem reportCount_report_other {g : Nat} {r : Report} (h : r.gen ≠ g) :
    reportCount g [Out.report r] = 0 := by
  simp [reportCount, List.filter, Out.isReportFor, h]

theorem reportCount_pos_of_mem {r : Report} {out : List Out}
    (h : Out.report r ∈ out) : 0 < reportCount r.gen out := by
  have hm : Out.report r ∈ out.filter (Out.isReportFor r.gen) :=
    List.mem_filter.mpr ⟨h, by simp [Out.isReportFor]⟩
  exact List.length_pos.mpr (List.ne_nil_of_mem hm)

theorem sessOK_of {st st' : BotState} {s s' : Session} (h : SessOK st s)
    (hnext : st.nextGen ≤ st'.nextGen)
    (hcnt : reportCount s.gen st'.output = reportCount s.gen st.output)
    (hlen : s'.tasks.length = s.tasks.length) (hgen : s'.gen = s.gen)
    (htot : s'.total0 = s.total0) : SessOK st' s' := by
  obtain ⟨h1, h2, h3⟩ := h
  refine ⟨by rw [hlen, htot]; exact h1, by rw [hgen]; omega, ?_⟩
  rw [hgen, hcnt]
  exact h3

theorem repOK_of {st st' : BotState} {l : List Out} (h : RepOK st)
    (hout : st'.output = st.output ++ l) (hl : ∀ o ∈ l, o.isReport = false)
    (hnext : st.nextGen ≤ st'.nextGen) : RepOK st' := by
  intro r hr
  rw [hout] at hr
  rcases List.mem_append.mp hr with hr2 | hr2
  · obtain ⟨hg, ht, hc⟩ := h r hr2
    refine ⟨by omega, ht, ?_⟩
    rw [hout, reportCount_append, reportCount_plain hl]
    omega
  · exact absurd (hl _ hr2) (by simp [Out.isReport])

theorem finalReport_gen (s : Session) : (finalReport s).gen = s.gen := rfl

theorem show_results_none {st : BotState} (hs : st.session = none) :
    show_results st = st := by
  unfold show_results
  rw [hs]

theorem show_results_some {st : BotState} {s : Session} (hs : st.session = some s) :
    show_results st =
      { st with session := none,
                output := st.output ++ [Out.report (finalReport s)] } := by
  unfold show_results
  rw [hs]

theorem repOK_append1 {st : BotState} (h : RepOK st) (o : Out)
    (ho : o.isReport = false) (sess : Option Session) (tm : List Nat) :
    RepOK { session := sess, output := st.output ++ [o],
            nextGen := st.nextGen, timers := tm } := by
  intro r hr
  simp only [List.mem_append, List.mem_singleton] at hr
  rcases hr with hr2 | hr2
  · obtain ⟨hg, ht, hc⟩ := h r hr2
    refine ⟨hg, ht, ?_⟩
    show reportCount r.gen (st.output ++ [o]) ≤ 1
    rw [reportCount_append]
    have hz : reportCount r.gen [o] = 0 := by
      apply reportCount_plain (l := [o])
      intro o2 ho2
      simp only [List.mem_singleton] at ho2
      subst ho2
      exact ho
    omega
  · subst hr2
    simp [Out.isReport] at ho

theorem show_results_good {st : BotState} (h : Pre st) : Good (show_results st) := by
  cases hs : st.session with
  | none =>
    rw [show_results_none hs]
    exact ⟨h, fun s hss => Option.noConfusion (hs ▸ hss)⟩
  | some s =>
    have hOK : SessOK st s := h.1 s hs
    rw [show_results_some hs]
    refine ⟨⟨fun s2 hs2 => by simp at hs2, ?_⟩, fun s2 hs2 => by simp at hs2⟩
    intro r hr
    simp only [List.mem_append] at hr
    rcases hr with hr2 | hr2
    · obtain ⟨hg, ht, hc⟩ := h.2 r hr2
      refine ⟨hg, ht, ?_⟩
      show reportCount r.gen (st.output ++ [Out.report (finalReport s)]) ≤ 1
      rw [reportCount_append]
      have hne : (finalReport s).gen ≠ r.gen := by
        rw [finalReport_gen]
        intro e
        have hp := reportCount_pos_of_mem hr2
        rw [← e] at hp
        have h0 := hOK.2.2
        omega
      rw [reportCount_report_other hne]
      omega
    · have hr3 : r = finalReport s := by simpa using hr2
      subst hr3
      refine ⟨hOK.2.1, hOK.1, ?_⟩
      show reportCount (finalReport s).gen
        (st.output ++ [Out.report (finalReport s)]) ≤ 1
      rw [reportCount_append, reportCount_report_self, finalReport_gen, hOK.2.2]

theorem send_task_fuel_zero (st : BotState) : send_task_fuel 0 st = st := rfl

theorem send_task_fuel_none {f : Nat} {st : BotState} (hs : st.session = none) :
    send_task_fuel (f + 1) st = st := by
  obtain ⟨sess, out, ng, tm⟩ := st
  dsimp only at hs
  subst hs
  rfl

theorem send_task_fuel_some {f : Nat} {st : BotState} {s : Session}
    (hs : st.session = some s) :
    send_task_fuel (f + 1) st =
      (if s.current ≥ s.tasks.length then show_results st
       else
         (let task := s.tasks.getD s.current default
          if task.type = "choice" then
            { st with output := st.output ++ [Out.qChoice task.question task.options] }
          else if task.type = "text" then
            { st with
              session := some { s with waiting_text := true }
              output := st.output ++ [Out.qText task.question] }
          else
            send_task_fuel f
              { st with
                session := some { s with current := s.current + 1 }
                output := st.output ++ [Out.qFallback task.question] })) := by
  obtain ⟨sess, out, ng, tm⟩ := st
  dsimp only at hs
  subst hs
  rfl

theorem send_task_fuel_good (fuel : Nat) : ∀ st : BotState, PreLe st →
    (∀ s, st.session = some s → s.tasks.length - s.current < fuel) →
    Good (send_task_fuel fuel st) := by
  induction fuel with
  | zero =>
    intro st hpre hf
    rw [send_task_fuel_zero]
    exact ⟨hpre.1, fun s hs => absurd (hf s hs) (by omega)⟩
  | succ f ih =>
    intro st hpre hf
    cases hs : st.session with
    | none =>
      rw [send_task_fuel_none hs]
      exact ⟨hpre.1, fun s hss => Option.noConfusion (hs ▸ hss)⟩
    | some s =>
      rw [send_task_fuel_some hs]
      have hcur : s.current ≤ s.tasks.length := hpre.2 s hs
      by_cases hc : s.current ≥ s.tasks.length
      · rw [if_pos hc]
        exact show_results_good hpre.1
      · rw [if_neg hc]
        show Good
          (if (s.tasks.getD s.current default).type = "choice" then _ else _)
        by_cases h1 : (s.tasks.getD s.current default).type = "choice"
        · rw [if_pos h1]
          refine ⟨⟨fun s2 hs2 => ?_, ?_⟩, fun s2 hs2 => ?_⟩
          · have : some s = some s2 := by rw [← hs]; exact hs2
            obtain rfl : s = s2 := Option.some.inj this
            refine sessOK_of (hpre.1.1 s hs) (by simp) ?_ rfl rfl rfl
            simp [reportCount, List.filter_append, Out.isReportFor]
          · exact repOK_append1 hpre.1.2 _ (by rfl) _ _
          · have : some s = some s2 := by rw [← hs]; exact hs2
            obtain rfl : s = s2 := Option.some.inj this
            omega
        · rw [if_neg h1]
          by_cases h2 : (s.tasks.getD s.current default).type = "text"
          · rw [if_pos h2]
            refine ⟨⟨fun s2 hs2 => ?_, ?_⟩, fun s2 hs2 => ?_⟩
            · obtain rfl : { s with waiting_text := true } = s2 :=
                Option.some.inj hs2
              refine sessOK_of (hpre.1.1 s hs) (by simp) ?_ rfl rfl rfl
              simp [reportCount, List.filter_append, Out.isReportFor]
            · exact repOK_append1 hpre.1.2 _ (by rfl) _ _
            · obtain rfl : { s with waiting_text := true } = s2 :=
                Option.some.inj hs2
              show s.current < s.tasks.length
              omega
          · rw [if_neg h2]
            refine ih _ ⟨⟨fun s2 hs2 => ?_, ?_⟩, fun s2 hs2 => ?_⟩ ?_
            · obtain rfl : { s with current := s.current + 1 } = s2 :=
                Option.some.inj hs2
              refine sessOK_of (hpre.1.1 s hs) (by simp) ?_ rfl rfl rfl
              simp [reportCount, List.filter_append, Out.isReportFor]
            · exact repOK_append1 hpre.1.2 _ (by rfl) _ _
            · obtain rfl : { s with current := s.current + 1 } = s2 :=
                Option.some.inj hs2
              show s.current + 1 ≤ s.tasks.length
              omega
            · intro s2 hs2
              obtain rfl : { s with current := s.current + 1 } = s2 :=
                Option.some.inj hs2
              show s.tasks.length - (s.current + 1) < f
              have := hf s hs
              omega

theorem reportCount_single_plain {o : Out} (ho : o.isReport = false) (g : Nat) :
    reportCount g [o] = 0 := by
  apply reportCount_plain (l := [o])
  intro o2 ho2
  simp only [List.mem_singleton] at ho2
  subst ho2
  exact ho

theorem feedback_plain (b : Bool) :
    (if b then Out.correctFeedback else Out.incorrectFeedback).isReport = false := by
  cases b <;> rfl

theorem exists_report_of_pos {g : Nat} {out : List Out}
    (h : 0 < reportCount g out) : ∃ r : Report, Out.report r ∈ out ∧ r.gen = g := by
  unfold reportCount at h
  have hne : out.filter (Out.isReportFor g) ≠ [] := by
    intro e
    rw [e] at h
    simp at h
  obtain ⟨o, ho⟩ := List.exists_mem_of_ne_nil _ hne
  have hm := List.mem_filter.mp ho
  cases o with
  | report r => exact ⟨r, hm.1, by simpa [Out.isReportFor] using hm.2⟩
  | serverError => simp [Out.isReportFor] at hm
  | notRegistered => simp [Out.isReportFor] at hm
  | noTasks => simp [Out.isReportFor] at hm
  | qChoice q os => simp [Out.isReportFor] at hm
  | qText q => simp [Out.isReportFor] at hm
  | qFallback q => simp [Out.isReportFor] at hm
  | correctFeedback => simp [Out.isReportFor] at hm
  | incorrectFeedback => simp [Out.isReportFor] at hm
  | noSessionHint => simp [Out.isReportFor] at hm
  | menu => simp [Out.isReportFor] at hm

theorem reportCount_nextGen_zero {st : BotState} (h : RepOK st) :
    reportCount st.nextGen st.output = 0 := by
  by_contra hne
  obtain ⟨r, hm, hg⟩ := exists_report_of_pos (Nat.pos_of_ne_zero hne)
  have := (h r hm).1
  omega

theorem repOK_bump {st : BotState} (h : RepOK st) (sess : Option Session)
    (ng : Nat) (hng : st.nextGen ≤ ng) (tm : List Nat) :
    RepOK { session := sess, output := st.output, nextGen := ng, timers := tm } := by
  intro r hr
  obtain ⟨hg, ht, hc⟩ := h r hr
  refine ⟨?_, ht, hc⟩
  show r.gen < ng
  omega

theorem good_append_plain {st : BotState} (h : Good st) (o : Out)
    (ho : o.isReport = false) :
    Good { st with output := st.output ++ [o] } := by
  refine ⟨⟨fun s hs => ?_, repOK_append1 h.1.2 o ho st.session st.timers⟩,
    fun s hs => h.2 s hs⟩
  refine sessOK_of (h.1.1 s hs) (by simp) ?_ rfl rfl rfl
  show reportCount s.gen (st.output ++ [o]) = reportCount s.gen st.output
  rw [reportCount_append, reportCount_single_plain ho]
  omega

theorem good_of_none {st : BotState} (h : Pre st) (hs : st.session = none) :
    Good st :=
  ⟨h, fun _ hss => Option.noConfusion (hs ▸ hss)⟩

theorem send_task_none {st : BotState} (hs : st.session = none) :
    send_task st = st := by
  unfold send_task
  rw [hs]

theorem send_task_some {st : BotState} {s : Session} (hs : st.session = some s) :
    send_task st = send_task_fuel (s.tasks.length + 1) st := by
  unfold send_task
  rw [hs]

theorem send_task_good {st : BotState} (h : PreLe st) : Good (send_task st) := by
  cases hs : st.session with
  | none =>
    rw [send_task_none hs]
    exact good_of_none h.1 hs
  | some s =>
    rw [send_task_some hs]
    apply send_task_fuel_good _ _ h
    intro s2 hs2
    rw [hs] at hs2
    obtain rfl := Option.some.inj hs2
    omega

theorem score_answer_fields (s : Session) (raw : String) :
    (score_answer s raw).1.tasks = s.tasks ∧
    (score_answer s raw).1.current = s.current + 1 ∧
    (score_answer s raw).1.gen = s.gen ∧
    (score_answer s raw).1.total0 = s.total0 ∧
    (score_answer s raw).1.waiting_text = false := by
  by_cases hn : normalize_answer raw =
      normalize_answer (s.tasks[s.current]?.getD default).answer
  · simp [score_answer, hn]
  · simp [score_answer, hn]

theorem process_answer_none {st : BotState} (hs : st.session = none)
    (label : String) :
    process_answer label st =
      some { st with output := st.output ++ [Out.noSessionHint] } := by
  obtain ⟨sess, out, ng, tm⟩ := st
  dsimp only at hs
  subst hs
  rfl

theorem process_answer_some {st : BotState} {s : Session}
    (hs : st.session = some s) (label : String)
    (hc : s.current < s.tasks.length) :
    process_answer label st =
      some (send_task
        { st with
          session := some (score_answer s label).1
          output := st.output ++
            [if (score_answer s label).2 then Out.correctFeedback
             else Out.incorrectFeedback] }) := by
  obtain ⟨sess, out, ng, tm⟩ := st
  dsimp only at hs
  subst hs
  unfold process_answer
  dsimp only
  rw [if_pos hc]

theorem skip_task_none {st : BotState} (hs : st.session = none) :
    skip_task st = some st := by
  obtain ⟨sess, out, ng, tm⟩ := st
  dsimp only at hs
  subst hs
  rfl

theorem skip_task_some {st : BotState} {s : Session}
    (hs : st.session = some s) (hc : s.current < s.tasks.length) :
    skip_task st = some (send_task { st with session := some (skip_core s) }) := by
  obtain ⟨sess, out, ng, tm⟩ := st
  dsimp only at hs
  subst hs
  unfold skip_task
  dsimp only
  rw [if_pos hc]

theorem process_text_answer_silent {st : BotState} (text : String)
    (h : ∀ s, st.session = some s → s.waiting_text = false) :
    process_text_answer text st = some st := by
  obtain ⟨sess, out, ng, tm⟩ := st
  cases hs : sess with
  | none =>
    subst hs
    rfl
  | some s =>
    subst hs
    have hw : s.waiting_text = false := h s rfl
    unfold process_text_answer
    dsimp only
    rw [if_pos hw]

theorem process_text_answer_some {st : BotState} {s : Session}
    (hs : st.session = some s) (text : String) (hw : s.waiting_text = true)
    (hc : s.current < s.tasks.length) :
    process_text_answer text st =
      some (send_task
        { st with
          session := some (score_answer s (pyStrip text)).1
          output := st.output ++
            [if (score_answer s (pyStrip text)).2 then Out.correctFeedback
             else Out.incorrectFeedback] }) := by
  obtain ⟨sess, out, ng, tm⟩ := st
  dsimp only at hs
  subst hs
  unfold process_text_answer
  dsimp only
  rw [if_neg (by rw [hw]; exact fun e => Bool.noConfusion e), if_pos hc]

theorem skip_core_length {s : Session} (hc : s.current < s.tasks.length) :
    (skip_core s).tasks.length = s.tasks.length := by
  show (s.tasks.eraseIdx s.current ++ [s.tasks.getD s.current default]).length
    = s.tasks.length
  rw [List.length_append]
  show (s.tasks.eraseIdx s.current).length + 1 = s.tasks.length
  exact List.length_eraseIdx_add_one hc

theorem scored_state_good {st : BotState} {s : Session} (h : Good st)
    (hs : st.session = some s) (hc : s.current < s.tasks.length) (raw : String) :
    Good (send_task
      { st with
        session := some (score_answer s raw).1
        output := st.output ++
          [if (score_answer s raw).2 then Out.correctFeedback
           else Out.incorrectFeedback] }) := by
  obtain ⟨hT, hCur, hGen, hTot, hW⟩ := score_answer_fields s raw
  apply send_task_good
  constructor
  · constructor
    · intro s2 hs2
      obtain rfl := Option.some.inj hs2
      have hcnt : reportCount s.gen
          (st.output ++ [if (score_answer s raw).2 then Out.correctFeedback
            else Out.incorrectFeedback]) = reportCount s.gen st.output := by
        rw [reportCount_append, reportCount_single_plain (feedback_plain _)]
        omega
      exact sessOK_of (h.1.1 s hs) (by simp) hcnt (by rw [hT]) hGen hTot
    · exact repOK_append1 h.1.2 _ (by exact feedback_plain _) _ _
  · intro s2 hs2
    obtain rfl := Option.some.inj hs2
    rw [hCur, hT]
    omega

theorem test_timer_body_none {st : BotState} (hs : st.session = none) :
    test_timer_body st = st := by
  obtain ⟨sess, out, ng, tm⟩ := st
  dsimp only at hs
  subst hs
  rfl

theorem test_timer_body_some {st : BotState} {s : Session}
    (hs : st.session = some s) : test_timer_body st = show_results st := by
  obtain ⟨sess, out, ng, tm⟩ := st
  dsimp only at hs
  subst hs
  rfl

theorem step_good {st : BotState} (h : Good st) (e : Event) :
    ∃ st2, step st e = some st2 ∧ Good st2 := by
  cases e with
  | start reg bank =>
    show ∃ st2, some (begin_test reg bank st) = some st2 ∧ Good st2
    refine ⟨begin_test reg bank st, rfl, ?_⟩
    cases reg with
    | err => exact good_append_plain h Out.serverError rfl
    | absent => exact good_append_plain h Out.notRegistered rfl
    | found =>
      by_cases hb : bank.isEmpty
      · unfold begin_test
        rw [if_pos hb]
        exact good_append_plain h Out.noTasks rfl
      · unfold begin_test
        rw [if_neg hb]
        apply send_task_good
        constructor
        · constructor
          · intro s2 hs2
            obtain rfl := Option.some.inj hs2
            refine ⟨rfl, ?_, ?_⟩
            · show st.nextGen < st.nextGen + 1
              omega
            · show reportCount st.nextGen st.output = 0
              exact reportCount_nextGen_zero h.1.2
          · exact repOK_bump h.1.2 _ _ (by omega) _
        · intro s2 hs2
          obtain rfl := Option.some.inj hs2
          show 0 ≤ bank.length
          omega
  | answerClick label =>
    show ∃ st2, process_answer label st = some st2 ∧ Good st2
    cases hs : st.session with
    | none =>
      refine ⟨_, process_answer_none hs label, ?_⟩
      exact good_append_plain h Out.noSessionHint rfl
    | some s =>
      have hc := h.2 s hs
      exact ⟨_, process_answer_some hs label hc, scored_state_good h hs hc label⟩
  | skip =>
    show ∃ st2, skip_task st = some st2 ∧ Good st2
    cases hs : st.session with
    | none => exact ⟨st, skip_task_none hs, h⟩
    | some s =>
      have hc := h.2 s hs
      refine ⟨_, skip_task_some hs hc, ?_⟩
      apply send_task_good
      constructor
      · constructor
        · intro s2 hs2
          obtain rfl := Option.some.inj hs2
          exact sessOK_of (h.1.1 s hs) (by simp) rfl (skip_core_length hc) rfl rfl
        · exact repOK_bump h.1.2 _ _ (by omega) _
      · intro s2 hs2
        obtain rfl := Option.some.inj hs2
        show s.current ≤ (skip_core s).tasks.length
        rw [skip_core_length hc]
        omega
  | backMenu =>
    show ∃ st2, some (main_menu st) = some st2 ∧ Good st2
    refine ⟨main_menu st, rfl, ?_⟩
    refine ⟨⟨fun s2 hs2 => Option.noConfusion hs2, ?_⟩,
      fun s2 hs2 => Option.noConfusion hs2⟩
    exact repOK_append1 h.1.2 Out.menu rfl none st.timers
  | textMsg t =>
    show ∃ st2, process_text_answer t st = some st2 ∧ Good st2
    by_cases hw : ∀ s2, st.session = some s2 → s2.waiting_text = false
    · exact ⟨st, process_text_answer_silent t hw, h⟩
    · push_neg at hw
      obtain ⟨s, hs, hwt⟩ := hw
      have hwt2 : s.waiting_text = true := by
        cases hval : s.waiting_text
        · exact absurd hval hwt
        · rfl
      have hc := h.2 s hs
      exact ⟨_, process_text_answer_some hs t hwt2 hc,
        scored_state_good h hs hc (pyStrip t)⟩
  | timerFire g =>
    by_cases hg : g ∈ st.timers
    · have h2 : Good { st with timers := st.timers.erase g } :=
        ⟨⟨fun s hs => h.1.1 s hs, fun r hr => h.1.2 r hr⟩, fun s hs => h.2 s hs⟩
      refine ⟨test_timer_body { st with timers := st.timers.erase g }, ?_, ?_⟩
      · show step st (Event.timerFire g) = _
        unfold step
        dsimp only
        rw [if_pos hg]
      · cases hs2 : st.session with
        | none =>
          rw [hs2] at h2
          rw [test_timer_body_none (Eq.refl (none : Option Session))]
          exact good_of_none h2.1 rfl
        | some s =>
          rw [hs2] at h2
          rw [test_timer_body_some (Eq.refl (some s))]
          exact show_results_good h2.1
    · refine ⟨st, ?_, h⟩
      show step st (Event.timerFire g) = some st
      unfold step
      dsimp only
      rw [if_neg hg]

theorem good_init : Good init :=
  ⟨⟨fun _ hs => Option.noConfusion hs, fun _ hr => absurd hr (List.not_mem_nil _)⟩,
    fun _ hs => Option.noConfusion hs⟩

theorem steps_good : ∀ (es : List Event) (st : BotState), Good st →
    ∃ st2, steps st es = some st2 ∧ Good st2 := by
  intro es
  induction es with
  | nil => exact fun st h => ⟨st, rfl, h⟩
  | cons e es ih =>
    intro st h
    obtain ⟨st2, he, h2⟩ := step_good h e
    obtain ⟨st3, hes, h3⟩ := ih st2 h2
    refine ⟨st3, ?_, h3⟩
    show steps st (e :: es) = some st3
    unfold steps
    rw [he]
    exact hes

theorem stray_event_noop {st : BotState} (hs : st.session = none) (e : Event)
    (hne : e.isStart = false) :
    ∃ st2, step st e = some st2 ∧ st2.session = none ∧
      ∀ g, reportCount g st2.output = reportCount g st.output := by
  cases e with
  | start reg bank => simp [Event.isStart] at hne
  | answerClick label =>
    refine ⟨_, process_answer_none hs label, hs, fun g => ?_⟩
    show reportCount g (st.output ++ [Out.noSessionHint]) = reportCount g st.output
    rw [reportCount_append, reportCount_single_plain (by rfl)]
    omega
  | skip => exact ⟨st, skip_task_none hs, hs, fun g => rfl⟩
  | backMenu =>
    refine ⟨main_menu st, rfl, rfl, fun g => ?_⟩
    show reportCount g (st.output ++ [Out.menu]) = reportCount g st.output
    rw [reportCount_append, reportCount_single_plain (by rfl)]
    omega
  | textMsg t =>
    exact ⟨st, process_text_answer_silent t
      (fun s2 hs2 => Option.noConfusion (hs ▸ hs2)), hs, fun g => rfl⟩
  | timerFire g2 =>
    by_cases hg : g2 ∈ st.timers
    · refine ⟨{ st with timers := st.timers.erase g2 }, ?_, hs, fun g => rfl⟩
      show step st (Event.timerFire g2) = _
      unfold step
      dsimp only
      rw [if_pos hg, test_timer_body_none
        (show BotState.session { st with timers := st.timers.erase g2 } = none
          from hs)]
    · refine ⟨st, ?_, hs, fun g => rfl⟩
      show step st (Event.timerFire g2) = some st
      unfold step
      dsimp only
      rw [if_neg hg]

/-- Claim C9: whenever a session for the user is stored at the moment an
answer, skip, or free-text event is dispatched, its position is strictly
below the queue length, so the unguarded `tasks[current]` indexing and the
`pop(current)` in those handlers never raise: along every event trace from
the initial state no handler crashes (`steps` never returns `none`), and
every stored session satisfies `current < len(tasks)` (hence
`0 ≤ current ≤ len(tasks)`, with equality only transiently inside a
dispatch, before `send_task` finalizes and removes the session). -/
theorem stored_session_position_in_bounds (es : List Event) :
    ∃ st, steps init es = some st ∧
      ∀ s, st.session = some s → s.current < s.tasks.length := by
  obtain ⟨st, he, hg⟩ := steps_good es init good_init
  exact ⟨st, he, hg.2⟩

/-- Claim C9 witness: the theorem applied to a concrete trace. -/
theorem stored_session_position_in_bounds_witness :
    ∃ st, steps init [Event.start RegLookup.found [tChoice, tText],
        Event.answerClick "4", Event.skip] = some st ∧
      ∀ s, st.session = some s → s.current < s.tasks.length :=
  stored_session_position_in_bounds
    [Event.start RegLookup.found [tChoice, tText], Event.answerClick "4",
      Event.skip]

/-- Claim C2: a session finalizes at most once — along every trace from the
initial state each session generation has at most one final report, a
stored (unfinalized) session has none, and once the user's slot is empty
every non-start event leaves the slot empty and emits no report (no
resurrection, no second finalization).  (A session discarded by
return-to-menu is dropped without ever finalizing, so "exactly once" holds
in the sense of "at most once, and never again after finalization".) -/
theorem session_finalizes_at_most_once (es : List Event) :
    ∃ st, steps init es = some st ∧
      (∀ g, reportCount g st.output ≤ 1) ∧
      (∀ s, st.session = some s → reportCount s.gen st.output = 0) ∧
      (st.session = none → ∀ e, e.isStart = false →
        ∃ st2, step st e = some st2 ∧ st2.session = none ∧
          ∀ g, reportCount g st2.output = reportCount g st.output) := by
  obtain ⟨st, he, hg⟩ := steps_good es init good_init
  refine ⟨st, he, ?_, fun s hs => (hg.1.1 s hs).2.2,
    fun hs e hne => stray_event_noop hs e hne⟩
  intro g
  by_cases hz : reportCount g st.output = 0
  · omega
  · obtain ⟨r, hm, hgen⟩ := exists_report_of_pos (Nat.pos_of_ne_zero hz)
    have := (hg.1.2 r hm).2.2
    rw [hgen] at this
    exact this

/-- Claim C2 witness: the theorem applied to a concrete trace. -/
theorem session_finalizes_at_most_once_witness :
    ∃ st, steps init [Event.start RegLookup.found [tChoice],
        Event.answerClick "4", Event.timerFire 0] = some st ∧
      (∀ g, reportCount g st.output ≤ 1) ∧
      (∀ s, st.session = some s → reportCount s.gen st.output = 0) ∧
      (st.session = none → ∀ e, e.isStart = false →
        ∃ st2, step st e = some st2 ∧ st2.session = none ∧
          ∀ g, reportCount g st2.output = reportCount g st.output) :=
  session_finalizes_at_most_once
    [Event.start RegLookup.found [tChoice], Event.answerClick "4",
      Event.timerFire 0]

/-- Claim C4: the denominator of the final report equals the queue length
at session start, for every session and every interleaving of answers and
skips: along every trace from the initial state, every emitted report
renders `total` equal to the ghost `total0` (the task-list length recorded
at `begin_test`), and every live session's queue still has its creation
length. -/
theorem report_total_is_initial_queue_length (es : List Event) :
    ∃ st, steps init es = some st ∧
      (∀ r : Report, Out.report r ∈ st.output → r.total = r.total0) ∧
      (∀ s, st.session = some s → s.tasks.length = s.total0) := by
  obtain ⟨st, he, hg⟩ := steps_good es init good_init
  exact ⟨st, he, fun r hr => (hg.1.2 r hr).2.1, fun s hs => (hg.1.1 s hs).1⟩

/-- Claim C4 witness: the theorem applied to a concrete trace with a skip
before finalization. -/
theorem report_total_is_initial_queue_length_witness :
    ∃ st, steps init [Event.start RegLookup.found [tChoice, tText],
        Event.skip, Event.timerFire 0] = some st ∧
      (∀ r : Report, Out.report r ∈ st.output → r.total = r.total0) ∧
      (∀ s, st.session = some s → s.tasks.length = s.total0) :=
  report_total_is_initial_queue_length
    [Event.start RegLookup.found [tChoice, tText], Event.skip,
      Event.timerFire 0]

/-- Claim C1 is violated by the code (stale-timer safety fails when the
session is *replaced*): after `staleTrace` — start test (generation 0,
timer 0), then start again, which replaces the session (generation 1,
timer 1) — timer 0 is still pending while the stored session has
generation 1; firing timer 0, scheduled for the removed generation-0
session, passes the `user_id in user_sessions` guard of `test_timer` and
finalizes the *current* generation-1 session: the slot becomes empty and a
final report for generation 1 is emitted.  The claim says such a stale
timer never finalizes the session currently in the store. -/
theorem stale_timer_finalizes_replacement_session :
    ((steps init staleTrace).map (fun st =>
        (st.timers, st.session.map Session.gen, st.output.filter Out.isReport))
      = some ([0, 1], some 1, [])) ∧
    ((steps init (staleTrace ++ [Event.timerFire 0])).map (fun st =>
        (st.session.map Session.gen, st.output.filter Out.isReport))
      = some (none, [Out.report
          { correct := 0, total := 1, wrong := [], gen := 1, total0 := 1 }])) := by
  constructor
  · rfl
  · rfl

theorem score_answer_pos {s : Session} {raw : String}
    (hn : normalize_answer raw =
      normalize_answer (s.tasks.getD s.current default).answer) :
    score_answer s raw =
      ({ s with correct := s.correct + 1, current := s.current + 1,
                waiting_text := false }, true) := by
  simp only [score_answer]
  rw [if_pos hn]

theorem score_answer_neg {s : Session} {raw : String}
    (hn : ¬ normalize_answer raw =
      normalize_answer (s.tasks.getD s.current default).answer) :
    score_answer s raw =
      ({ s with
          wrong := s.wrong ++ [((s.tasks.getD s.current default).question,
            (s.tasks.getD s.current default).explanation)],
          current := s.current + 1, waiting_text := false }, false) := by
  simp only [score_answer]
  rw [if_neg hn]

/-- Claim C3: every answer submission against an existing session —
whatever the value of `waiting_text` for a choice-button click, and with
`waiting_text` true for a free-text message (only then is a text an answer
submission, bot.py line 238) — is scored by comparing
`normalize(rawAnswer)` with `normalize(expectedAnswer)` of the task at the
current position: on equality `correct` grows by exactly one and `wrong`
is unchanged; on inequality `correct` is unchanged and the pair
(question, explanation) is appended to `wrong`; in both cases the position
advances by one and `waiting_text` becomes false.  The free-text handler
strips the inbound text first, which does not change its normal form
(`normalize_answer_pyStrip`), and both handlers then present the next
task from the scored session. -/
theorem answer_scoring (st : BotState) (s : Session) (raw : String)
    (hs : st.session = some s) (hc : s.current < s.tasks.length) :
    ((normalize_answer raw =
        normalize_answer (s.tasks.getD s.current default).answer →
      (score_answer s raw).1.correct = s.correct + 1 ∧
      (score_answer s raw).1.wrong = s.wrong) ∧
     (¬ normalize_answer raw =
        normalize_answer (s.tasks.getD s.current default).answer →
      (score_answer s raw).1.correct = s.correct ∧
      (score_answer s raw).1.wrong = s.wrong ++
        [((s.tasks.getD s.current default).question,
          (s.tasks.getD s.current default).explanation)]) ∧
     (score_answer s raw).1.current = s.current + 1 ∧
     (score_answer s raw).1.waiting_text = false) ∧
    normalize_answer (pyStrip raw) = normalize_answer raw ∧
    process_answer raw st =
      some (send_task
        { st with
          session := some (score_answer s raw).1
          output := st.output ++
            [if (score_answer s raw).2 then Out.correctFeedback
             else Out.incorrectFeedback] }) ∧
    (s.waiting_text = true →
      process_text_answer raw st =
        some (send_task
          { st with
            session := some (score_answer s (pyStrip raw)).1
            output := st.output ++
              [if (score_answer s (pyStrip raw)).2 then Out.correctFeedback
               else Out.incorrectFeedback] })) := by
  refine ⟨⟨fun hn => ?_, fun hn => ?_, (score_answer_fields s raw).2.1,
      (score_answer_fields s raw).2.2.2.2⟩,
    normalize_answer_pyStrip raw,
    process_answer_some hs raw hc,
    fun hw => process_text_answer_some hs raw hw hc⟩
  · rw [score_answer_pos hn]
    exact ⟨rfl, rfl⟩
  · rw [score_answer_neg hn]
    exact ⟨rfl, rfl⟩

/-- Claim C3 witness: the theorem applied at two concrete states — a
choice-pending session (`waiting_text = false`) receiving a wrong button
label, and an awaiting-free-text session receiving the correct typed
answer. -/
theorem answer_scoring_witness :
    (sChoiceWit.current < sChoiceWit.tasks.length ∧
     sChoiceWit.waiting_text = false ∧
     process_answer "3" stChoiceWit =
       some (send_task
         { stChoiceWit with
           session := some (score_answer sChoiceWit "3").1
           output := stChoiceWit.output ++
             [if (score_answer sChoiceWit "3").2 then Out.correctFeedback
              else Out.incorrectFeedback] })) ∧
    (sWit.current < sWit.tasks.length ∧ sWit.waiting_text = true ∧
     process_text_answer "Paris" stWit =
       some (send_task
         { stWit with
           session := some (score_answer sWit (pyStrip "Paris")).1
           output := stWit.output ++
             [if (score_answer sWit (pyStrip "Paris")).2 then Out.correctFeedback
              else Out.incorrectFeedback] })) :=
  ⟨⟨by decide, rfl,
      (answer_scoring stChoiceWit sChoiceWit "3" rfl (by decide)).2.2.1⟩,
    ⟨by decide, rfl,
      (answer_scoring stWit sWit "Paris" rfl (by decide)).2.2.2 rfl⟩⟩

/-- Claim C10: a choice-button callback is accepted and scored whenever any
session exists for the user — no `waiting_text` check and no question
identity in the callback data: the carried label is compared against the
expected answer of the task currently at `current`, and the position then
advances.  (A click on a stale button from an earlier question is thus
evaluated against the current task.) -/
theorem choice_click_scored_against_current_task (st : BotState) (s : Session)
    (label : String) (hs : st.session = some s)
    (hc : s.current < s.tasks.length) :
    process_answer label st =
      some (send_task
        { st with
          session := some (score_answer s label).1
          output := st.output ++
            [if (score_answer s label).2 then Out.correctFeedback
             else Out.incorrectFeedback] }) ∧
    ((score_answer s label).2 = true ↔
      normalize_answer label =
        normalize_answer (s.tasks.getD s.current default).answer) ∧
    (score_answer s label).1.current = s.current + 1 := by
  refine ⟨process_answer_some hs label hc, ?_, (score_answer_fields s label).2.1⟩
  by_cases hn : normalize_answer label =
      normalize_answer (s.tasks.getD s.current default).answer
  · rw [score_answer_pos hn]
    simp [hn]
  · rw [score_answer_neg hn]
    simp only [Bool.false_eq_true, false_iff]
    simpa using hn

/-- Claim C10 witness: the theorem applied at a concrete state whose
session is *not* awaiting free text — the click is scored anyway. -/
theorem choice_click_scored_witness :
    sChoiceWit.current < sChoiceWit.tasks.length ∧
    sChoiceWit.waiting_text = false ∧
    process_answer "4" stChoiceWit =
      some (send_task
        { stChoiceWit with
          session := some (score_answer sChoiceWit "4").1
          output := stChoiceWit.output ++
            [if (score_answer sChoiceWit "4").2 then Out.correctFeedback
             else Out.incorrectFeedback] }) :=
  ⟨by decide, rfl, (choice_click_scored_against_current_task stChoiceWit
    sChoiceWit "4" rfl (by decide)).1⟩

/-- Claim C5: with the position in bounds, `skip` removes the task at
`position` from the queue and appends it at the end without changing the
position: the queue length is unchanged, the new queue is
`take position ++ drop (position+1) ++ [skipped]`, the task at any index
`j` from `position` up to the second-to-last slot is the task that was
previously at `j+1` (in particular the current slot now holds the
previously-next task when one exists), and the skipped task sits at the
last index — so it is presented again only after every other remaining
task, unless it is the only task left (then it is immediately current
again).  The `skip` handler applies exactly this rotation and re-presents. -/
theorem skip_semantics (s : Session) (h : s.current < s.tasks.length) :
    (skip_core s).tasks.length = s.tasks.length ∧
    (skip_core s).current = s.current ∧
    (skip_core s).tasks =
      s.tasks.take s.current ++ s.tasks.drop (s.current + 1) ++
        [s.tasks.getD s.current default] ∧
    (∀ j, s.current ≤ j → j + 1 < s.tasks.length →
      (skip_core s).tasks.getD j default = s.tasks.getD (j + 1) default) ∧
    (skip_core s).tasks.getD (s.tasks.length - 1) default =
      s.tasks.getD s.current default ∧
    (∀ st : BotState, st.session = some s →
      skip_task st = some (send_task { st with session := some (skip_core s) })) := by
  have hlen : (s.tasks.eraseIdx s.current).length = s.tasks.length - 1 := by
    rw [List.length_eraseIdx, if_pos h]
  refine ⟨skip_core_length h, rfl, ?_, ?_, ?_, fun st hst => skip_task_some hst h⟩
  · show s.tasks.eraseIdx s.current ++ [s.tasks.getD s.current default] = _
    rw [List.eraseIdx_eq_take_drop_succ, List.append_assoc]
  · intro j hj hj1
    show (s.tasks.eraseIdx s.current ++
      [s.tasks.getD s.current default]).getD j default = _
    rw [List.getD_eq_getElem?_getD, List.getD_eq_getElem?_getD,
      List.getElem?_append_left (by omega),
      List.getElem?_eraseIdx_of_ge s.tasks s.current j hj,
      List.getD_eq_getElem?_getD]
  · show (s.tasks.eraseIdx s.current ++
      [s.tasks.getD s.current default]).getD (s.tasks.length - 1) default = _
    rw [List.getD_eq_getElem?_getD,
      List.getElem?_append_right (by omega)]
    rw [hlen]
    have he : s.tasks.length - 1 - (s.tasks.length - 1) = 0 := by omega
    rw [he]
    rfl

/-- Claim C5 witness: the theorem applied to a concrete two-task session at
position 0. -/
theorem skip_semantics_witness :
    sWit.current < sWit.tasks.length ∧
    (skip_core sWit).tasks.length = sWit.tasks.length ∧
    (skip_core sWit).current = sWit.current ∧
    (skip_core sWit).tasks =
      sWit.tasks.take sWit.current ++ sWit.tasks.drop (sWit.current + 1) ++
        [sWit.tasks.getD sWit.current default] :=
  ⟨by decide, (skip_semantics sWit (by decide)).1,
    (skip_semantics sWit (by decide)).2.1,
    (skip_semantics sWit (by decide)).2.2.1⟩

/-- Claim C6: an inbound text message is evaluated as an answer only when
the user's session exists with `waiting_text` true; in every other case
(no session, or a session not awaiting free text) the catch-all text
handler returns with the state — session store, session fields, transcript
— completely unchanged. -/
theorem text_ignored_unless_awaiting (st : BotState) (text : String)
    (h : ∀ s, st.session = some s → s.waiting_text = false) :
    process_text_answer text st = some st :=
  process_text_answer_silent text h

/-- Claim C6 witness: the theorem applied both to the empty initial state
and to a state whose session shows a choice task (not awaiting text). -/
theorem text_ignored_unless_awaiting_witness :
    process_text_answer "hello" init = some init ∧
    process_text_answer "hello" stChoiceWit = some stChoiceWit :=
  ⟨text_ignored_unless_awaiting init "hello"
      (fun _ hs => Option.noConfusion hs),
    text_ignored_unless_awaiting stChoiceWit "hello"
      (fun s hs => by obtain rfl := Option.some.inj hs; rfl)⟩

/-- Claim C7: `begin_test` for a registered user with an empty task bank
sends the distinct "no tasks" message and aborts: no session is created
(a user who had none still has none), no timer is scheduled, and nothing
else changes. -/
theorem empty_bank_no_session (st : BotState) (hs : st.session = none) :
    begin_test RegLookup.found [] st =
      { st with output := st.output ++ [Out.noTasks] } ∧
    (begin_test RegLookup.found [] st).session = none ∧
    (begin_test RegLookup.found [] st).timers = st.timers ∧
    (begin_test RegLookup.found [] st).nextGen = st.nextGen :=
  ⟨rfl, hs, rfl, rfl⟩

/-- Claim C7 witness: the theorem applied to the initial state. -/
theorem empty_bank_no_session_witness :
    init.session = none ∧
    begin_test RegLookup.found [] init =
      { init with output := init.output ++ [Out.noTasks] } ∧
    (begin_test RegLookup.found [] init).session = none :=
  ⟨rfl, (empty_bank_no_session init rfl).1, (empty_bank_no_session init rfl).2.1⟩

end MathBot
